import Mathlib

/-!
Verification of the trusted-proxies core: the network-trust configuration
(`Config`, from src/config.rs), the request abstraction (`Request`, the
materialized view of the `RequestInformation` trait from src/extract.rs) and
the chain-walking trust resolver (`Trusted`, from src/trusted.rs).

Strings are modelled as Lean `String`; the Rust `str` primitives used by the
source (`split(char)`, `splitn(2, char)`, `trim`, `trim_start_matches`,
`trim_end_matches`, `to_lowercase`) are given explicit structural definitions
over the character list, matching the Rust semantics (whitespace and case
mapping restricted to ASCII, which covers HTTP header content).

IP addresses and networks are library primitives for the source (`core::net`,
the `ipnet` crate); they are modelled concretely: an address is its numeric
value (32-bit or 128-bit as a `Nat`), parsing follows the grammar accepted by
the Rust standard library (`IpAddr::from_str`) and by `ipnet`
(`IpNet::from_str`), and prefix containment follows the
network/broadcast range check of `ipnet`.
-/

/-- IP address: the numeric value of an IPv4 (32-bit) or IPv6 (128-bit)
address, mirroring `core::net::IpAddr`. -/
inductive IpAddr where
  | v4 (bits : Nat)
  | v6 (bits : Nat)
deriving DecidableEq, Repr

/-- An IP network prefix (address plus prefix length), mirroring
`ipnet::IpNet`. The address keeps its host bits as parsed. -/
structure IpNet where
  addr : IpAddr
  prefix_len : Nat
deriving DecidableEq, Repr

/-- Range check of `ipnet`: an address is contained in a network iff it is of
the same family and lies between the network and broadcast addresses derived
from the stored address and prefix length. -/
def IpNet.contains (n : IpNet) (a : IpAddr) : Bool :=
  match n.addr, a with
  | .v4 na, .v4 x =>
    let step := 2 ^ (32 - n.prefix_len)
    let network := na / step * step
    decide (network ≤ x ∧ x ≤ network + (step - 1))
  | .v6 na, .v6 x =>
    let step := 2 ^ (128 - n.prefix_len)
    let network := na / step * step
    decide (network ≤ x ∧ x ≤ network + (step - 1))
  | _, _ => false

/-- `ipnet::IpNet::from(IpAddr)`: promote a bare address to a host-length
prefix (/32 for IPv4, /128 for IPv6). -/
def IpNet.fromIpAddr (a : IpAddr) : IpNet :=
  match a with
  | .v4 b => ⟨.v4 b, 32⟩
  | .v6 b => ⟨.v6 b, 128⟩

/-! ### String primitives (Rust `str` operations) -/

/-- Auxiliary scanner for `splitChar`: `cur` holds the (reversed) characters
of the piece being accumulated. -/
def splitCharAux (sep : Char) : List Char → List Char → List String
  | [], cur => [String.mk cur.reverse]
  | c :: rest, cur =>
    if c = sep then String.mk cur.reverse :: splitCharAux sep rest []
    else splitCharAux sep rest (c :: cur)

/-- Rust `str::split(sep)` for a character separator: the list of pieces
between occurrences of `sep` (always non-empty; empty input gives `[""]`). -/
def splitChar (sep : Char) (s : String) : List String :=
  splitCharAux sep s.data []

/-- Break a character list at the first occurrence of `sep`: `none` when
`sep` does not occur, otherwise the characters before and after it.
This is the content of Rust `str::splitn(2, sep)` / `str::find`. -/
def breakAtChar (sep : Char) : List Char → Option (List Char × List Char)
  | [] => none
  | c :: rest =>
    if c = sep then some ([], rest)
    else (breakAtChar sep rest).map (fun p => (c :: p.1, p.2))

/-- Trim ASCII whitespace from both ends of a character list. -/
def trimCharList (cs : List Char) : List Char :=
  ((cs.dropWhile Char.isWhitespace).reverse.dropWhile Char.isWhitespace).reverse

/-- Rust `str::trim` (whitespace model restricted to ASCII). -/
def trimString (s : String) : String :=
  String.mk (trimCharList s.data)

/-- Rust `str::trim_start_matches(c)`: drop every leading occurrence. -/
def trimStartMatches (c : Char) (s : String) : String :=
  String.mk (s.data.dropWhile (fun x => x = c))

/-- Rust `str::trim_end_matches(c)`: drop every trailing occurrence. -/
def trimEndMatches (c : Char) (s : String) : String :=
  String.mk ((s.data.reverse.dropWhile (fun x => x = c)).reverse)

/-- src/trusted.rs `unquote`: trim whitespace then any quote marks. -/
def unquote (val : String) : String :=
  trimEndMatches '"' (trimStartMatches '"' (trimString val))

/-- Rust `str::to_lowercase` restricted to ASCII (sufficient for the
`Forwarded` parameter keys, which are ASCII tokens). -/
def asciiLower (s : String) : String :=
  String.mk (s.data.map Char.toLower)

/-- Characters of `val.split("]:").next()`: everything before the first
occurrence of the two-character sequence `]:` (the whole input when the
sequence does not occur). -/
def takeUntilBracketColon : List Char → List Char
  | ']' :: ':' :: _ => []
  | c :: rest => c :: takeUntilBracketColon rest
  | [] => []

/-- src/trusted.rs `bare_address`: remove port and IPv6 square brackets from
a peer specification. -/
def bare_address (val : String) : String :=
  if val.data.head? = some '[' then
    trimEndMatches ']' (trimStartMatches '[' (String.mk (takeUntilBracketColon val.data)))
  else
    String.mk (val.data.takeWhile (fun c => c ≠ ':'))

/-! ### Address and network parsing (Rust std / ipnet grammar) -/

/-- Decimal parse of a bounded unsigned integer, as Rust `FromStr` for the
unsigned integer types: an optional leading `+`, then one or more ASCII
digits; fails on any other character or when the value exceeds `max`. -/
def parseBoundedDec (max : Nat) (s : String) : Option Nat :=
  let ds := if s.data.head? = some '+' then s.data.tail else s.data
  if ds.isEmpty then none
  else if ¬ ds.all Char.isDigit then none
  else
    let v := ds.foldl (fun a c => a * 10 + (c.toNat - 48)) 0
    if v ≤ max then some v else none

/-- Rust `u16::from_str` (used for ports). -/
def parseU16 (s : String) : Option Nat := parseBoundedDec 65535 s

/-- Rust `u8::from_str` (used for prefix lengths). -/
def parseU8 (s : String) : Option Nat := parseBoundedDec 255 s

/-- One IPv4 octet as read by the std parser: one to three ASCII digits, no
leading zero, value at most 255. -/
def parseOctet (s : String) : Option Nat :=
  let cs := s.data
  if cs.length = 0 ∨ cs.length > 3 then none
  else if ¬ cs.all Char.isDigit then none
  else if cs.length > 1 ∧ cs.head? = some '0' then none
  else
    let v := cs.foldl (fun a c => a * 10 + (c.toNat - 48)) 0
    if v ≤ 255 then some v else none

/-- Rust `Ipv4Addr::from_str`: exactly four octets separated by dots. -/
def parseIpv4 (s : String) : Option Nat :=
  match (splitChar '.' s).mapM parseOctet with
  | some [a, b, c, d] => some (((a * 256 + b) * 256 + c) * 256 + d)
  | _ => none

/-- ASCII hexadecimal digit test. -/
def isHexDigitChar (c : Char) : Bool :=
  c.isDigit || ('a' ≤ c && c ≤ 'f') || ('A' ≤ c && c ≤ 'F')

/-- Value of an ASCII hexadecimal digit. -/
def hexDigitVal (c : Char) : Nat :=
  if c.isDigit then c.toNat - 48
  else if 'a' ≤ c && c ≤ 'f' then c.toNat - 87
  else c.toNat - 55

/-- One IPv6 group: one to four hexadecimal digits (leading zeros allowed,
as in the std parser). -/
def parseHexGroup (s : String) : Option Nat :=
  let cs := s.data
  if cs.length = 0 ∨ cs.length > 4 then none
  else if ¬ cs.all isHexDigitChar then none
  else some (cs.foldl (fun a c => a * 16 + hexDigitVal c) 0)

/-- Split a character list at the first occurrence of the two-character
sequence `::`. -/
def splitDoubleColon : List Char → Option (List Char × List Char)
  | ':' :: ':' :: rest => some ([], rest)
  | c :: rest => (splitDoubleColon rest).map (fun p => (c :: p.1, p.2))
  | [] => none

/-- Colon-separated groups of a (possibly empty) side of a `::`. -/
def colonGroups (cs : List Char) : List String :=
  if cs.isEmpty then [] else splitChar ':' (String.mk cs)

/-- Parse a run of IPv6 groups into 16-bit words, where (as in the std
parser) the final group may be an embedded dotted IPv4 address contributing
two words. -/
def parseGroupWords (gs : List String) : Option (List Nat) :=
  match gs with
  | [] => some []
  | _ =>
    match gs.mapM parseHexGroup with
    | some ws => some ws
    | none =>
      match gs.getLast? with
      | some lastg =>
        match parseIpv4 lastg with
        | some v4 =>
          match gs.dropLast.mapM parseHexGroup with
          | some ws => some (ws ++ [v4 / 65536, v4 % 65536])
          | none => none
        | none => none
      | none => none

/-- Combine eight 16-bit words into the 128-bit value. -/
def wordsToNat (ws : List Nat) : Nat :=
  ws.foldl (fun a w => a * 65536 + w) 0

/-- Rust `Ipv6Addr::from_str`: eight 16-bit groups, with at most one `::`
compression standing for at least one zero group, and an optional embedded
IPv4 address in the last position. -/
def parseIpv6 (s : String) : Option Nat :=
  match splitDoubleColon s.data with
  | none =>
    match parseGroupWords (splitChar ':' s) with
    | some ws => if ws.length = 8 then some (wordsToNat ws) else none
    | none => none
  | some (h, t) =>
    match parseGroupWords (colonGroups h), parseGroupWords (colonGroups t) with
    | some hws, some tws =>
      if hws.length + tws.length ≤ 7 then
        some (wordsToNat (hws ++ List.replicate (8 - hws.length - tws.length) 0 ++ tws))
      else none
    | _, _ => none

/-- Rust `IpAddr::from_str`: an IPv4 literal or an IPv6 literal. -/
def parseIpAddr (s : String) : Option IpAddr :=
  match parseIpv4 s with
  | some b => some (.v4 b)
  | none =>
    match parseIpv6 s with
    | some b => some (.v6 b)
    | none => none

/-- `ipnet::Ipv4Net::from_str`: an IPv4 address, `/`, and a prefix length of
at most 32 (read as a `u8`). -/
def parseIpv4Net (s : String) : Option IpNet :=
  match breakAtChar '/' s.data with
  | some (a, p) =>
    match parseIpv4 (String.mk a), parseU8 (String.mk p) with
    | some addr, some len => if len ≤ 32 then some ⟨.v4 addr, len⟩ else none
    | _, _ => none
  | none => none

/-- `ipnet::Ipv6Net::from_str`: an IPv6 address, `/`, and a prefix length of
at most 128 (read as a `u8`). -/
def parseIpv6Net (s : String) : Option IpNet :=
  match breakAtChar '/' s.data with
  | some (a, p) =>
    match parseIpv6 (String.mk a), parseU8 (String.mk p) with
    | some addr, some len => if len ≤ 128 then some ⟨.v6 addr, len⟩ else none
    | _, _ => none
  | none => none

/-- `ipnet::IpNet::from_str`: try the IPv4 form, then the IPv6 form. -/
def parseIpNet (s : String) : Option IpNet :=
  match parseIpv4Net s with
  | some n => some n
  | none => parseIpv6Net s

/-! ### Config (src/config.rs) -/

/-- src/config.rs `Config`: the trusted network set and the five per-header
trust flags. -/
structure Config where
  trusted_ips : List IpNet
  is_forwarded_trusted : Bool
  is_x_forwarded_for_trusted : Bool
  is_x_forwarded_host_trusted : Bool
  is_x_forwarded_proto_trusted : Bool
  is_x_forwarded_by_trusted : Bool
deriving DecidableEq, Repr

namespace Config

/-- `Config::new`: no trusted proxies or headers. -/
def new : Config :=
  { trusted_ips := []
    is_forwarded_trusted := false
    is_x_forwarded_for_trusted := false
    is_x_forwarded_host_trusted := false
    is_x_forwarded_proto_trusted := false
    is_x_forwarded_by_trusted := false }

/-- `Config::new_local` (also `Config::default`): local and private networks
trusted, `Forwarded` and `X-Forwarded-For` headers trusted. The six network
literals of the source are parsed by `parseIpNet`. -/
def new_local : Config :=
  { trusted_ips :=
      ["127.0.0.0/8", "10.0.0.0/8", "172.16.0.0/12", "192.168.0.0/16",
       "::1/128", "fd00::/8"].filterMap parseIpNet
    is_forwarded_trusted := true
    is_x_forwarded_for_trusted := true
    is_x_forwarded_host_trusted := false
    is_x_forwarded_proto_trusted := false
    is_x_forwarded_by_trusted := false }

/-- `Config::add_trusted_ip`: parse the text as a CIDR network, or failing
that as a bare IP address promoted to a host-length prefix, and append it to
the trusted set; otherwise fail with a parse error for the given text. -/
def add_trusted_ip (c : Config) (proxy : String) : Except String Config :=
  match parseIpNet proxy with
  | some n => .ok { c with trusted_ips := c.trusted_ips ++ [n] }
  | none =>
    match parseIpAddr proxy with
    | some a => .ok { c with trusted_ips := c.trusted_ips ++ [IpNet.fromIpAddr a] }
    | none => .error proxy

/-- `Config::is_ip_trusted`: linear scan of the trusted set. -/
def is_ip_trusted (c : Config) (remote_addr : IpAddr) : Bool :=
  c.trusted_ips.any (fun net => net.contains remote_addr)

/-- `Config::trust_forwarded`. -/
def trust_forwarded (c : Config) : Config := { c with is_forwarded_trusted := true }

/-- `Config::trust_x_forwarded_for`. -/
def trust_x_forwarded_for (c : Config) : Config := { c with is_x_forwarded_for_trusted := true }

/-- `Config::trust_x_forwarded_host`. -/
def trust_x_forwarded_host (c : Config) : Config := { c with is_x_forwarded_host_trusted := true }

/-- `Config::trust_x_forwarded_proto`. -/
def trust_x_forwarded_proto (c : Config) : Config := { c with is_x_forwarded_proto_trusted := true }

/-- `Config::trust_x_forwarded_by`. -/
def trust_x_forwarded_by (c : Config) : Config := { c with is_x_forwarded_by_trusted := true }

end Config

/-! ### Request view (src/extract.rs `RequestInformation`) -/

/-- The materialized data a request exposes through the `RequestInformation`
trait: the host-header admissibility flag, the literal `Host` header, the URI
authority and scheme, and the ordered raw values of the five forwarding
headers (one list entry per header instance). -/
structure Request where
  is_host_header_allowed : Bool
  host_header : Option String
  authority : Option String
  default_scheme : Option String
  forwarded : List String
  x_forwarded_for : List String
  x_forwarded_host : List String
  x_forwarded_proto : List String
  x_forwarded_by : List String
deriving DecidableEq, Repr

/-- `RequestInformation::default_host`: the `Host` header when allowed by the
protocol version, otherwise the URI authority. -/
def Request.default_host (r : Request) : Option String :=
  match (if r.is_host_header_allowed then r.host_header else none) with
  | some h => some h
  | none => r.authority

/-! ### The trust resolver (src/trusted.rs) -/

/-- Flatten multi-instance header values into their comma-separated pieces,
as `iter().flat_map(|vals| vals.split(','))` does. -/
def flattenSplit (vals : List String) : List String :=
  (vals.map (fun v => splitChar ',' v)).flatten

/-- The four mutable accumulators of the trusted branch of `Trusted::from`:
`host`, `scheme`, `by` and `realip_remote_addr`. -/
structure FwdAcc where
  host : Option String
  scheme : Option String
  «by» : Option String
  realip : Option IpAddr
deriving DecidableEq, Repr

/-- The all-`None` initial accumulator state. -/
def FwdAcc.empty : FwdAcc := ⟨none, none, none, none⟩

/-- Parse one `;`-separated item of a `Forwarded` record into a key/value
pair: split at the first `=`, trim the key, trim and unquote the value
(missing value defaults to the empty string). -/
def parseParam (item : String) : String × String :=
  match breakAtChar '=' item.data with
  | some (k, v) => (trimString (String.mk k), unquote (trimString (String.mk v)))
  | none => (trimString item, "")

/-- The key/value parameters of one `Forwarded` record. -/
def recordParams (record : String) : List (String × String) :=
  (splitChar ';' record).map parseParam

/-- The inner parameter loop of the `Forwarded` walk. Keys are matched
case-insensitively. A `for=` value parsing to an address is recorded as the
candidate client address; if that address is trusted all four accumulators
are reset and the result flag `true` asks the outer walk to continue with
the previous (older) record. Otherwise the flag is `false`: the outer walk
stops with the accumulated values. -/
def processParams (cfg : Config) : List (String × String) → FwdAcc → FwdAcc × Bool
  | [], acc => (acc, false)
  | (k, v) :: rest, acc =>
    if asciiLower k = "for" then
      match parseIpAddr (bare_address v) with
      | some ip =>
        if cfg.is_ip_trusted ip then (FwdAcc.empty, true)
        else processParams cfg rest { acc with realip := some ip }
      | none => processParams cfg rest acc
    else if asciiLower k = "proto" then processParams cfg rest { acc with scheme := some v }
    else if asciiLower k = "host" then processParams cfg rest { acc with host := some v }
    else if asciiLower k = "by" then processParams cfg rest { acc with «by» := some v }
    else processParams cfg rest acc

/-- The labeled outer loop of the `Forwarded` walk, taking the flattened
records already reversed (newest hop first). -/
def forwardedWalk (cfg : Config) : List String → FwdAcc
  | [] => FwdAcc.empty
  | record :: rest =>
    match processParams cfg (recordParams record) FwdAcc.empty with
    | (acc, goNext) => if goNext then forwardedWalk cfg rest else acc

/-- Step 1 of `Trusted::from`: the `Forwarded` walk, run only when the
`Forwarded` trust flag is set. -/
def forwardedStep (cfg : Config) (req : Request) : FwdAcc :=
  if cfg.is_forwarded_trusted then
    forwardedWalk cfg (flattenSplit req.forwarded).reverse
  else FwdAcc.empty

/-- The `X-Forwarded-For` loop body, taking the flattened trimmed entries
already reversed: skip trusted addresses, stop at the first entry that is
untrusted (returning its address) or unparseable (returning nothing). -/
def xffWalk (cfg : Config) : List String → Option IpAddr
  | [] => none
  | v :: rest =>
    match parseIpAddr (bare_address v) with
    | some ip => if cfg.is_ip_trusted ip then xffWalk cfg rest else some ip
    | none => none

/-- Step 2 of `Trusted::from`: the `X-Forwarded-For` walk over the flattened,
trimmed, reversed entries. -/
def xffStep (cfg : Config) (req : Request) : Option IpAddr :=
  xffWalk cfg ((flattenSplit req.x_forwarded_for).map trimString).reverse

/-- Steps 3 to 5 of `Trusted::from`: the last comma-separated value across
all instances of a legacy header (`next_back()` of the flattened trimmed
iterator). -/
def lastValue (vals : List String) : Option String :=
  ((flattenSplit vals).map trimString).getLast?

/-- The resolution result (the data of `TrustedBorrowed` / `TrustedOwned`;
the borrowed/owned split of the source is a lifetime optimization with no
semantic content). Fields carry a `_value` suffix because the accessors of
the source share the field names. -/
structure Trusted where
  host_value : Option String
  scheme_value : Option String
  by_value : Option String
  ip_value : IpAddr
deriving DecidableEq, Repr

namespace Trusted

/-- `Trusted::scheme`: direct field read. -/
def scheme (t : Trusted) : Option String := t.scheme_value

/-- `Trusted::host_with_port`: direct read of the combined host field. -/
def host_with_port (t : Trusted) : Option String := t.host_value

/-- `Trusted::host`: `host.split(':').next()`. -/
def host (t : Trusted) : Option String :=
  t.host_with_port.bind (fun h => (splitChar ':' h).head?)

/-- `Trusted::port`: `host.split(':').nth(1).and_then(parse::<u16>)`. -/
def port (t : Trusted) : Option Nat :=
  t.host_with_port.bind (fun h => ((splitChar ':' h).get? 1).bind parseU16)

/-- `Trusted::by`: direct field read. -/
def «by» (t : Trusted) : Option String := t.by_value

/-- `Trusted::ip`: direct field read. -/
def ip (t : Trusted) : IpAddr := t.ip_value

/-- `Option::or_else` on already-computed alternatives. -/
def orOpt (a b : Option String) : Option String :=
  match a with
  | some x => some x
  | none => b

/-- `Trusted::from`: the full resolution. An untrusted peer short-circuits to
request-intrinsic data; a trusted peer runs the `Forwarded` walk (step 1),
the `X-Forwarded-For` walk when no client address was resolved (step 2), the
last-value reads of the three remaining legacy headers for fields still
unset (steps 3 to 5), then fills host and scheme from the request-intrinsic
defaults and the client address from the peer address (step 6). -/
def «from» (ip_addr : IpAddr) (request : Request) (config : Config) : Trusted :=
  if ! config.is_ip_trusted ip_addr then
    { host_value := request.default_host
      scheme_value := request.default_scheme
      by_value := none
      ip_value := ip_addr }
  else
    let fwd := forwardedStep config request
    let realip :=
      if fwd.realip.isNone && config.is_x_forwarded_for_trusted then
        xffStep config request
      else fwd.realip
    let host :=
      if fwd.host.isNone && config.is_x_forwarded_host_trusted then
        lastValue request.x_forwarded_host
      else fwd.host
    let scheme :=
      if fwd.scheme.isNone && config.is_x_forwarded_proto_trusted then
        lastValue request.x_forwarded_proto
      else fwd.scheme
    let by_ :=
      if fwd.«by».isNone && config.is_x_forwarded_by_trusted then
        lastValue request.x_forwarded_by
      else fwd.«by»
    { host_value := orOpt host request.default_host
      scheme_value := orOpt scheme request.default_scheme
      by_value := by_
      ip_value := realip.getD ip_addr }

end Trusted

/-! ### Specification-side definitions

These follow the wording of the specification (classification of records and
of host-field segments), independently of the accumulator-threading of the
walk; the theorems below relate them to the source definitions. -/

/-- A record (given as its parameter list) contains a `for=` parameter whose
value parses to a trusted address, the scan reaching it as the walk does:
later parameters are not consulted once a trusted `for=` is found. -/
def paramsHaveTrustedFor (cfg : Config) : List (String × String) → Bool
  | [] => false
  | (k, v) :: rest =>
    if asciiLower k = "for" then
      match parseIpAddr (bare_address v) with
      | some ip => if cfg.is_ip_trusted ip then true else paramsHaveTrustedFor cfg rest
      | none => paramsHaveTrustedFor cfg rest
    else paramsHaveTrustedFor cfg rest

/-- A record contains a `for=` parameter whose value parses to an untrusted
address (a terminating record in the wording of the specification). -/
def paramsHaveUntrustedFor (cfg : Config) (ps : List (String × String)) : Bool :=
  ps.any (fun kv =>
    asciiLower kv.1 == "for" &&
    (match parseIpAddr (bare_address kv.2) with
     | some ip => ! cfg.is_ip_trusted ip
     | none => false))

/-- Some flattened `Forwarded` record of the request is a terminating record:
its `for=` value parses to an untrusted address. -/
def hasTerminatingRecord (cfg : Config) (req : Request) : Bool :=
  (flattenSplit req.forwarded).any (fun r => paramsHaveUntrustedFor cfg (recordParams r))

/-- The characters before the first occurrence of `sep`. -/
def beforeChar (sep : Char) : List Char → List Char
  | [] => []
  | c :: rest => if c = sep then [] else c :: beforeChar sep rest

/-- The characters after the first occurrence of `sep` (`none` when `sep`
does not occur). -/
def afterChar (sep : Char) : List Char → Option (List Char)
  | [] => none
  | c :: rest => if c = sep then some rest else afterChar sep rest

/-- The reading of `host()` in the claim: the combined host field with its
trailing `:port` segment (everything from the last colon on) removed; the
full field when there is no colon. -/
def hostStripTrailingSegment (h : String) : String :=
  match afterChar ':' h.data.reverse with
  | none => h
  | some revInit => String.mk revInit.reverse

/-- The reading of `port()` in the claim: the trailing segment (after the last
colon) parsed as a 16-bit unsigned integer; `none` when there is no colon. -/
def portTrailingSegment (h : String) : Option Nat :=
  match afterChar ':' h.data.reverse with
  | none => none
  | some _ => parseU16 (String.mk (beforeChar ':' h.data.reverse).reverse)

/-! ### Helper lemmas -/

/-- The continue flag of the parameter loop is exactly the trusted-`for=`
classification, independently of the accumulator state. -/
theorem processParams_snd (cfg : Config) :
    ∀ (ps : List (String × String)) (acc : FwdAcc),
      (processParams cfg ps acc).2 = paramsHaveTrustedFor cfg ps := by
  intro ps
  induction ps with
  | nil => intro acc; rfl
  | cons kv rest ih =>
    intro acc
    obtain ⟨k, v⟩ := kv
    by_cases hfor : asciiLower k = "for"
    · simp only [processParams, paramsHaveTrustedFor, hfor, if_true]
      cases parseIpAddr (bare_address v) with
      | some ip =>
        by_cases ht : cfg.is_ip_trusted ip <;> simp [ht, ih]
      | none => simp [ih]
    · by_cases hproto : asciiLower k = "proto" <;>
        by_cases hhost : asciiLower k = "host" <;>
          by_cases hby : asciiLower k = "by" <;>
            simp [processParams, paramsHaveTrustedFor, hfor, hproto, hhost, hby, ih]

/-- On a trusted hit the parameter loop resets the accumulators. -/
theorem processParams_trusted (cfg : Config) :
    ∀ (ps : List (String × String)) (acc : FwdAcc),
      paramsHaveTrustedFor cfg ps = true →
      processParams cfg ps acc = (FwdAcc.empty, true) := by
  intro ps
  induction ps with
  | nil => intro acc h; simp [paramsHaveTrustedFor] at h
  | cons kv rest ih =>
    intro acc h
    obtain ⟨k, v⟩ := kv
    by_cases hfor : asciiLower k = "for"
    · simp only [processParams, paramsHaveTrustedFor, hfor, if_true] at h ⊢
      cases hp : parseIpAddr (bare_address v) with
      | some ip =>
        rw [hp] at h
        by_cases ht : cfg.is_ip_trusted ip
        · simp [ht]
        · simp [ht] at h ⊢; exact ih _ h
      | none => rw [hp] at h; exact ih _ h
    · by_cases hproto : asciiLower k = "proto" <;>
        by_cases hhost : asciiLower k = "host" <;>
          by_cases hby : asciiLower k = "by" <;>
            simp only [processParams, paramsHaveTrustedFor, hfor, hproto, hhost, hby,
              if_true, if_false] at h ⊢ <;> exact ih _ h

/-- The parameter loop only records untrusted candidate client addresses
(assuming the incoming accumulator already satisfies this). -/
theorem processParams_realip_untrusted (cfg : Config) :
    ∀ (ps : List (String × String)) (acc : FwdAcc),
      (∀ j, acc.realip = some j → cfg.is_ip_trusted j = false) →
      ∀ ip, (processParams cfg ps acc).1.realip = some ip →
        cfg.is_ip_trusted ip = false := by
  intro ps
  induction ps with
  | nil => intro acc hacc ip h; exact hacc ip h
  | cons kv rest ih =>
    intro acc hacc ip h
    obtain ⟨k, v⟩ := kv
    by_cases hfor : asciiLower k = "for"
    · simp only [processParams, hfor, if_true] at h
      cases hp : parseIpAddr (bare_address v) with
      | some j =>
        rw [hp] at h
        by_cases ht : cfg.is_ip_trusted j
        · simp [ht, FwdAcc.empty] at h
        · simp only [ht, if_false] at h
          refine ih _ ?_ ip h
          intro j' hj'
          simp at hj'
          simpa [← hj'] using ht
      | none =>
        rw [hp] at h
        exact ih _ hacc ip h
    · by_cases hproto : asciiLower k = "proto" <;>
        by_cases hhost : asciiLower k = "host" <;>
          by_cases hby : asciiLower k = "by" <;>
            simp only [processParams, hfor, hproto, hhost, hby, if_true, if_false] at h <;>
              exact ih _ (by simpa using hacc) ip h

/-- The `Forwarded` walk only resolves untrusted client addresses. -/
theorem forwardedWalk_realip_untrusted (cfg : Config) :
    ∀ (rs : List String) (ip : IpAddr),
      (forwardedWalk cfg rs).realip = some ip → cfg.is_ip_trusted ip = false := by
  intro rs
  induction rs with
  | nil => intro ip h; simp [forwardedWalk, FwdAcc.empty] at h
  | cons r rest ih =>
    intro ip h
    rw [forwardedWalk] at h
    rcases hp : processParams cfg (recordParams r) FwdAcc.empty with ⟨acc, g⟩
    rw [hp] at h
    cases g with
    | true => simp at h; exact ih ip h
    | false =>
      simp at h
      refine processParams_realip_untrusted cfg (recordParams r) FwdAcc.empty ?_ ip ?_
      · intro j hj; simp [FwdAcc.empty] at hj
      · rw [hp]; exact h

/-- Step 1 only resolves untrusted client addresses. -/
theorem forwardedStep_realip_untrusted (cfg : Config) (req : Request) (ip : IpAddr) :
    (forwardedStep cfg req).realip = some ip → cfg.is_ip_trusted ip = false := by
  intro h
  rw [forwardedStep] at h
  by_cases hf : cfg.is_forwarded_trusted
  · rw [if_pos hf] at h
    exact forwardedWalk_realip_untrusted cfg _ ip h
  · rw [if_neg hf] at h
    simp [FwdAcc.empty] at h

/-- The `X-Forwarded-For` walk only resolves untrusted client addresses. -/
theorem xffWalk_untrusted (cfg : Config) :
    ∀ (vs : List String) (ip : IpAddr),
      xffWalk cfg vs = some ip → cfg.is_ip_trusted ip = false := by
  intro vs
  induction vs with
  | nil => intro ip h; simp [xffWalk] at h
  | cons v rest ih =>
    intro ip h
    rw [xffWalk] at h
    cases hp : parseIpAddr (bare_address v) with
    | some j =>
      rw [hp] at h
      by_cases ht : cfg.is_ip_trusted j
      · simp only [ht, if_true] at h; exact ih ip h
      · simp only [ht, Bool.false_eq_true, if_false, Option.some.injEq] at h
        simpa [← h] using ht
    | none => rw [hp] at h; simp at h

/-- Step 2 only resolves untrusted client addresses. -/
theorem xffStep_untrusted (cfg : Config) (req : Request) (ip : IpAddr) :
    xffStep cfg req = some ip → cfg.is_ip_trusted ip = false := by
  intro h
  exact xffWalk_untrusted cfg _ ip h

/-- The resolved client address of a trusted-peer resolution, as the
step-2-guarded choice between the two walks, defaulting to the peer. -/
theorem from_ip_trusted (cfg : Config) (req : Request) (peer : IpAddr)
    (h : cfg.is_ip_trusted peer = true) :
    (Trusted.«from» peer req cfg).ip =
      (if (forwardedStep cfg req).realip.isNone && cfg.is_x_forwarded_for_trusted then
        xffStep cfg req
      else (forwardedStep cfg req).realip).getD peer := by
  simp [Trusted.«from», Trusted.ip, h]

/-- Trust membership ignores the header flags. -/
theorem is_ip_trusted_disable_forwarded (cfg : Config) (a : IpAddr) :
    Config.is_ip_trusted { cfg with is_forwarded_trusted := false } a =
      cfg.is_ip_trusted a := rfl

/-- The `X-Forwarded-For` walk ignores the `Forwarded` flag. -/
theorem xffWalk_disable_forwarded (cfg : Config) :
    ∀ vs, xffWalk { cfg with is_forwarded_trusted := false } vs = xffWalk cfg vs := by
  intro vs
  induction vs with
  | nil => rfl
  | cons v rest ih =>
    rw [xffWalk, xffWalk]
    cases parseIpAddr (bare_address v) with
    | some ip =>
      show (if Config.is_ip_trusted _ ip = true then _ else _) = _
      rw [is_ip_trusted_disable_forwarded, ih]
    | none => rfl

/-- Step 2 ignores the `Forwarded` flag. -/
theorem xffStep_disable_forwarded (cfg : Config) (req : Request) :
    xffStep { cfg with is_forwarded_trusted := false } req = xffStep cfg req := by
  rw [xffStep, xffStep, xffWalk_disable_forwarded]

/-- When step 1 produces nothing, the resolution agrees with the resolution
under a configuration whose `Forwarded` flag is disabled. -/
theorem from_forwarded_empty (cfg : Config) (req : Request) (peer : IpAddr)
    (h : forwardedStep cfg req = FwdAcc.empty) :
    Trusted.«from» peer req cfg =
      Trusted.«from» peer req { cfg with is_forwarded_trusted := false } := by
  have h' : forwardedStep { cfg with is_forwarded_trusted := false } req = FwdAcc.empty := by
    rw [forwardedStep]; rfl
  by_cases ht : cfg.is_ip_trusted peer
  · simp [Trusted.«from», ht, h, h', FwdAcc.empty, is_ip_trusted_disable_forwarded,
      xffStep_disable_forwarded]
  · simp [Trusted.«from», ht, is_ip_trusted_disable_forwarded]

/-- One step of the outer `Forwarded` walk, phrased through the
classification of the newest record: a trusted `for=` discards the record
and continues with the previous one, anything else stops the walk with the
accumulated values of this record alone. -/
theorem forwardedWalk_cons (cfg : Config) (r : String) (rs : List String) :
    forwardedWalk cfg (r :: rs) =
      if paramsHaveTrustedFor cfg (recordParams r) then forwardedWalk cfg rs
      else (processParams cfg (recordParams r) FwdAcc.empty).1 := by
  rw [forwardedWalk]
  rcases hp : processParams cfg (recordParams r) FwdAcc.empty with ⟨acc, g⟩
  have hg : g = paramsHaveTrustedFor cfg (recordParams r) := by
    have := processParams_snd cfg (recordParams r) FwdAcc.empty
    rw [hp] at this
    exact this
  rw [← hg]

/-- A walk in which every record carries a trusted `for=` exhausts the whole
list and leaves every accumulator unset. -/
theorem forwardedWalk_all_trusted (cfg : Config) :
    ∀ rs : List String,
      (∀ r ∈ rs, paramsHaveTrustedFor cfg (recordParams r) = true) →
      forwardedWalk cfg rs = FwdAcc.empty := by
  intro rs
  induction rs with
  | nil => intro _; rfl
  | cons r rest ih =>
    intro h
    rw [forwardedWalk_cons, if_pos (h r (List.mem_cons_self r rest))]
    exact ih (fun x hx => h x (List.mem_cons_of_mem r hx))

/-- The first piece produced by the split scanner is the pending accumulator
followed by the characters before the first separator. -/
theorem splitCharAux_head (sep : Char) :
    ∀ (cs cur : List Char),
      (splitCharAux sep cs cur).head? =
        some (String.mk (cur.reverse ++ beforeChar sep cs)) := by
  intro cs
  induction cs with
  | nil => intro cur; simp [splitCharAux, beforeChar]
  | cons c rest ih =>
    intro cur
    by_cases hc : c = sep
    · simp [splitCharAux, beforeChar, hc]
    · simp only [splitCharAux, beforeChar, hc, if_false, ih (c :: cur),
        List.reverse_cons, List.append_assoc, List.cons_append, List.nil_append]

/-- The pieces after the first are the split of the characters after the
first separator. -/
theorem splitCharAux_tail (sep : Char) :
    ∀ (cs cur : List Char),
      (splitCharAux sep cs cur).tail =
        (match afterChar sep cs with
         | none => []
         | some rest => splitCharAux sep rest []) := by
  intro cs
  induction cs with
  | nil => intro cur; simp [splitCharAux, afterChar]
  | cons c rest ih =>
    intro cur
    by_cases hc : c = sep
    · simp [splitCharAux, afterChar, hc]
    · simp only [splitCharAux, afterChar, hc, if_false]
      exact ih (c :: cur)

/-- The first piece of a character split. -/
theorem splitChar_head (sep : Char) (s : String) :
    (splitChar sep s).head? = some (String.mk (beforeChar sep s.data)) := by
  rw [splitChar, splitCharAux_head]
  rfl

/-- Indexing a list at position one reads the head of its tail. -/
theorem get?_one_eq_tail_head {α : Type} (l : List α) : l.get? 1 = l.tail.head? := by
  cases l with
  | nil => rfl
  | cons a t => cases t <;> rfl

/-- The second piece of a character split: the characters between the first
and the second separator, absent when the separator does not occur. -/
theorem splitChar_second (sep : Char) (s : String) :
    (splitChar sep s).get? 1 =
      (afterChar sep s.data).map (fun rest => String.mk (beforeChar sep rest)) := by
  rw [get?_one_eq_tail_head, splitChar, splitCharAux_tail]
  cases afterChar sep s.data with
  | none => rfl
  | some rest =>
    simp only [Option.map_some]
    rw [splitCharAux_head]
    rfl

/-! ### Concrete fixtures for the examples named by the specification -/

/-- A request with no headers, no authority and no scheme. -/
def baseReq : Request := ⟨true, none, none, none, [], [], [], [], []⟩

/-- Peer 127.0.0.1 (trusted under the local default configuration). -/
def peer127 : IpAddr := .v4 2130706433

/-- Peer 192.168.2.60 (trusted under the local default configuration). -/
def peerLan : IpAddr := .v4 3232236092

/-- Peer 8.8.8.8 (not trusted under the local default configuration). -/
def peerPub : IpAddr := .v4 134744072

/-- Request carrying `Forwarded: for=1.2.3.4, for=5.6.7.8`. -/
def reqC2 : Request := { baseReq with forwarded := ["for=1.2.3.4, for=5.6.7.8"] }

/-- The local default configuration with 5.6.7.8 additionally trusted
(the value produced by `add_trusted_ip`). -/
def cfgC2 : Config :=
  { Config.new_local with
      trusted_ips := Config.new_local.trusted_ips ++ [⟨.v4 84281096, 32⟩] }

/-- Request carrying `X-Forwarded-For: 1.1.1.1, 8.8.8.8`. -/
def reqC3 : Request := { baseReq with x_forwarded_for := ["1.1.1.1, 8.8.8.8"] }

/-- The local default configuration with 8.8.8.8 additionally trusted. -/
def cfgC3 : Config :=
  { Config.new_local with
      trusted_ips := Config.new_local.trusted_ips ++ [⟨.v4 134744072, 32⟩] }

/-- Request carrying `Forwarded: proto=https` (a record with no `for=`). -/
def reqC4 : Request := { baseReq with forwarded := ["proto=https"] }

/-- Request carrying `Forwarded: for=10.0.0.1` (a single record whose `for=`
address is trusted by the local default configuration). -/
def reqC4w : Request := { baseReq with forwarded := ["for=10.0.0.1"] }

/-- Request carrying `X-Forwarded-Host: first.com, example.com`. -/
def reqC6 : Request := { baseReq with x_forwarded_host := ["first.com, example.com"] }

/-- The local default configuration with the `X-Forwarded-Host` flag on. -/
def cfgHost : Config := Config.new_local.trust_x_forwarded_host

/-- Request carrying a quoted bracketed IPv6 `for=` value with a port. -/
def reqC7 : Request :=
  { baseReq with forwarded := ["for=\"[2001:db8:cafe::17]:4711\""] }

/-- The request of the crate documentation example: a full `Forwarded` record
with `host=mydomain.com:8080`. -/
def reqC8 : Request :=
  { baseReq with
      forwarded := ["for=1.2.3.4; proto=https; by=myproxy; host=mydomain.com:8080"] }

/-- Request carrying `X-Forwarded-Host: [::1]:8080` (a host field with two
colons). -/
def reqC8bad : Request := { baseReq with x_forwarded_host := ["[::1]:8080"] }

/-! ### Claims -/

/-- C1: for every request, configuration, and observed peer address that is
not in the configured trusted set, `Trusted::from` returns a result whose
`ip()` equals the observed peer address, whose `by()` is none, whose `host()`
comes from the request-intrinsic default (the `Host` header when the protocol
version allows it, otherwise the URI authority), and whose `scheme()` is the
URI scheme — regardless of the content of any `Forwarded` or `X-Forwarded-*`
header. -/
theorem claim_C1_untrusted_peer_fallback (cfg : Config) (req : Request) (peer : IpAddr)
    (h : cfg.is_ip_trusted peer = false) :
    (Trusted.«from» peer req cfg).ip = peer
    ∧ (Trusted.«from» peer req cfg).«by» = none
    ∧ (Trusted.«from» peer req cfg).host_with_port = req.default_host
    ∧ (Trusted.«from» peer req cfg).scheme = req.default_scheme := by
  refine ⟨?_, ?_, ?_, ?_⟩ <;>
    simp [Trusted.«from», Trusted.ip, Trusted.«by», Trusted.host_with_port,
      Trusted.scheme, h]

/-- Witness for C1: peer 8.8.8.8 is not trusted by the local default
configuration, so a spoofed `Forwarded: for=1.2.3.4, for=5.6.7.8` header is
ignored and the peer address is resolved. -/
theorem claim_C1_witness :
    (Trusted.«from» peerPub reqC2 Config.new_local).ip = peerPub
    ∧ (Trusted.«from» peerPub reqC2 Config.new_local).host_with_port =
        reqC2.default_host :=
  ⟨(claim_C1_untrusted_peer_fallback Config.new_local reqC2 peerPub (by decide)).1,
   (claim_C1_untrusted_peer_fallback Config.new_local reqC2 peerPub (by decide)).2.2.1⟩

/-- C5: for every configuration in which all five header-trust flags are
disabled, and for every peer address (trusted or not) and every request,
`Trusted::from` returns exactly the step-0 fallback result: ip = peer
address, by = none, host = request-intrinsic default host, scheme =
request-intrinsic default scheme. -/
theorem claim_C5_all_flags_disabled (cfg : Config) (req : Request) (peer : IpAddr)
    (h1 : cfg.is_forwarded_trusted = false)
    (h2 : cfg.is_x_forwarded_for_trusted = false)
    (h3 : cfg.is_x_forwarded_host_trusted = false)
    (h4 : cfg.is_x_forwarded_proto_trusted = false)
    (h5 : cfg.is_x_forwarded_by_trusted = false) :
    Trusted.«from» peer req cfg =
      ⟨req.default_host, req.default_scheme, none, peer⟩ := by
  by_cases ht : cfg.is_ip_trusted peer
  · simp [Trusted.«from», ht, forwardedStep, h1, h2, h3, h4, h5, FwdAcc.empty,
      Trusted.orOpt]
  · simp [Trusted.«from», ht]

/-- Witness for C5: the local trusted networks with every flag disabled, a
trusted peer, and a request full of forwarding headers still resolve to the
fallback. -/
theorem claim_C5_witness :
    Trusted.«from» peer127 reqC2
        { Config.new_local with
            is_forwarded_trusted := false, is_x_forwarded_for_trusted := false } =
      ⟨reqC2.default_host, reqC2.default_scheme, none, peer127⟩ :=
  claim_C5_all_flags_disabled
    { Config.new_local with
        is_forwarded_trusted := false, is_x_forwarded_for_trusted := false }
    reqC2 peer127 rfl rfl rfl rfl rfl

/-- C7: a `Forwarded` `for=` value given as a quoted, bracketed IPv6 literal
with an optional trailing port is normalized by trimming whitespace, removing
the surrounding double quotes, and stripping the brackets and the `:port`
suffix, and then parses to the bare address `2001:db8:cafe::17`; IPv4 `for=`
values likewise have an optional trailing `:port` stripped before parsing. -/
theorem claim_C7_for_value_normalization :
    unquote " \"[2001:db8:cafe::17]:4711\" " = "[2001:db8:cafe::17]:4711"
    ∧ bare_address "[2001:db8:cafe::17]:4711" = "2001:db8:cafe::17"
    ∧ parseIpAddr "2001:db8:cafe::17" =
        some (.v6 0x20010db8cafe00000000000000000017)
    ∧ (Trusted.«from» peer127 reqC7 Config.new_local).ip =
        .v6 0x20010db8cafe00000000000000000017
    ∧ bare_address "1.2.3.4:8080" = "1.2.3.4"
    ∧ parseIpAddr (bare_address "1.2.3.4:8080") = some (.v4 16909060) := by
  refine ⟨?_, ?_, ?_, ?_, ?_, ?_⟩ <;> decide

/-- C10: for every peer address, request, and configuration, if the address
returned by `ip()` on the result of `Trusted::from` lies inside some prefix
of the configured trusted set, then it equals the observed peer address. -/
theorem claim_C10_trusted_result_is_peer (cfg : Config) (req : Request) (peer : IpAddr)
    (h : cfg.is_ip_trusted (Trusted.«from» peer req cfg).ip = true) :
    (Trusted.«from» peer req cfg).ip = peer := by
  by_cases ht : cfg.is_ip_trusted peer
  · rw [from_ip_trusted cfg req peer ht] at h ⊢
    rcases hr :
        (if (forwardedStep cfg req).realip.isNone && cfg.is_x_forwarded_for_trusted then
          xffStep cfg req
        else (forwardedStep cfg req).realip) with _ | ip
    · rfl
    · rw [hr] at h
      have hip : cfg.is_ip_trusted ip = true := by simpa using h
      have hu : cfg.is_ip_trusted ip = false := by
        by_cases hc :
            ((forwardedStep cfg req).realip.isNone && cfg.is_x_forwarded_for_trusted) = true
        · rw [if_pos hc] at hr
          exact xffStep_untrusted cfg req ip hr
        · rw [if_neg hc] at hr
          exact forwardedStep_realip_untrusted cfg req ip hr
      exact absurd hip (by simp [hu])
  · simp [Trusted.«from», Trusted.ip, ht]

/-- Witness for C10: a trusted peer with no usable headers resolves to
itself, an address inside the trusted set. -/
theorem claim_C10_witness :
    (Trusted.«from» peer127 baseReq Config.new_local).ip = peer127 :=
  claim_C10_trusted_result_is_peer Config.new_local baseReq peer127 (by decide)

/-- C2: when the peer is trusted and the `Forwarded` flag is set, the
flattened records are scanned from last to first; a record whose `for=`
address is trusted is discarded (host/proto/by included) and the scan moves
to the previous record, a record whose `for=` address is untrusted stops the
scan entirely with that address as the resolved client, keeping the
host/proto/by of that record. In particular `for=1.2.3.4, for=5.6.7.8` from a trusted
peer resolves 5.6.7.8 under the default configuration and 1.2.3.4 when
5.6.7.8 is additionally trusted. -/
theorem claim_C2_forwarded_chain_walk :
    (∀ (cfg : Config) (r : String) (rs : List String),
      forwardedWalk cfg (r :: rs) =
        if paramsHaveTrustedFor cfg (recordParams r) then forwardedWalk cfg rs
        else (processParams cfg (recordParams r) FwdAcc.empty).1)
    ∧ (∀ (cfg : Config) (r : String) (ip : IpAddr),
        paramsHaveTrustedFor cfg (recordParams r) = false →
        (processParams cfg (recordParams r) FwdAcc.empty).1.realip = some ip →
        cfg.is_ip_trusted ip = false)
    ∧ (Trusted.«from» peer127 reqC2 Config.new_local).ip = .v4 84281096
    ∧ Config.add_trusted_ip Config.new_local "5.6.7.8" = .ok cfgC2
    ∧ (Trusted.«from» peer127 reqC2 cfgC2).ip = .v4 16909060 := by
  refine ⟨forwardedWalk_cons, ?_, by decide, by rfl, by decide⟩
  intro cfg r ip _ h
  refine processParams_realip_untrusted cfg (recordParams r) FwdAcc.empty ?_ ip h
  intro j hj
  simp [FwdAcc.empty] at hj

/-- Witness for C2: the first record of the walked example parses to the
untrusted address 1.2.3.4. -/
theorem claim_C2_witness :
    Config.new_local.is_ip_trusted (IpAddr.v4 16909060) = false :=
  claim_C2_forwarded_chain_walk.2.1 Config.new_local "for=1.2.3.4"
    (IpAddr.v4 16909060) (by decide) (by decide)

/-- C3: the `X-Forwarded-For` step runs only when its flag is set and step 1
resolved no client address; it walks the flattened entries right to left,
skipping trusted addresses and stopping at the first untrusted or
unparseable entry (resolving the former, leaving the client address unset
for the latter so the peer is used downstream). In particular
`1.1.1.1, 8.8.8.8` from a trusted peer resolves 8.8.8.8 under the default
configuration and 1.1.1.1 when 8.8.8.8 is additionally trusted. -/
theorem claim_C3_xff_walk :
    (∀ (cfg : Config) (req : Request) (peer : IpAddr),
      cfg.is_ip_trusted peer = true →
      cfg.is_x_forwarded_for_trusted = true →
      (forwardedStep cfg req).realip = none →
      (Trusted.«from» peer req cfg).ip = (xffStep cfg req).getD peer)
    ∧ (∀ (cfg : Config) (req : Request) (peer : IpAddr),
        cfg.is_ip_trusted peer = true →
        cfg.is_x_forwarded_for_trusted = false →
        (Trusted.«from» peer req cfg).ip = ((forwardedStep cfg req).realip).getD peer)
    ∧ (∀ (cfg : Config) (req : Request) (peer ip : IpAddr),
        cfg.is_ip_trusted peer = true →
        (forwardedStep cfg req).realip = some ip →
        (Trusted.«from» peer req cfg).ip = ip)
    ∧ (∀ (cfg : Config) (v : String) (vs : List String) (ip : IpAddr),
        parseIpAddr (bare_address v) = some ip → cfg.is_ip_trusted ip = true →
        xffWalk cfg (v :: vs) = xffWalk cfg vs)
    ∧ (∀ (cfg : Config) (v : String) (vs : List String) (ip : IpAddr),
        parseIpAddr (bare_address v) = some ip → cfg.is_ip_trusted ip = false →
        xffWalk cfg (v :: vs) = some ip)
    ∧ (∀ (cfg : Config) (v : String) (vs : List String),
        parseIpAddr (bare_address v) = none → xffWalk cfg (v :: vs) = none)
    ∧ (Trusted.«from» peerLan reqC3 Config.new_local).ip = .v4 134744072
    ∧ Config.add_trusted_ip Config.new_local "8.8.8.8" = .ok cfgC3
    ∧ (Trusted.«from» peerLan reqC3 cfgC3).ip = .v4 16843009 := by
  refine ⟨?_, ?_, ?_, ?_, ?_, ?_, by decide, by rfl, by decide⟩
  · intro cfg req peer h1 h2 h3
    rw [from_ip_trusted cfg req peer h1, h3]
    simp [h2]
  · intro cfg req peer h1 h2
    rw [from_ip_trusted cfg req peer h1]
    simp [h2]
  · intro cfg req peer ip h1 h2
    rw [from_ip_trusted cfg req peer h1, h2]
    simp
  · intro cfg v vs ip hp ht
    rw [xffWalk, hp]
    simp [ht]
  · intro cfg v vs ip hp ht
    rw [xffWalk, hp]
    simp [ht]
  · intro cfg v vs hp
    rw [xffWalk, hp]

/-- Witness for C3: under the default configuration a trusted peer with the
example header resolves through the `X-Forwarded-For` walk. -/
theorem claim_C3_witness :
    (Trusted.«from» peerLan reqC3 Config.new_local).ip =
      (xffStep Config.new_local reqC3).getD peerLan :=
  claim_C3_xff_walk.1 Config.new_local reqC3 peerLan (by decide) (by decide) (by decide)

/-- C6: for each of `X-Forwarded-Host`, `X-Forwarded-Proto` and
`X-Forwarded-By`, when the peer is trusted, the corresponding flag is set and
the corresponding field was not set by the `Forwarded` step, the field
becomes the last comma-separated value across all instances of that header,
with no trust-chain walking and no address validation. In particular
`X-Forwarded-Host: first.com, example.com` with host trust enabled and a
trusted peer yields host `example.com`. -/
theorem claim_C6_legacy_last_value :
    (∀ (cfg : Config) (req : Request) (peer : IpAddr) (v : String),
      cfg.is_ip_trusted peer = true →
      cfg.is_x_forwarded_host_trusted = true →
      (forwardedStep cfg req).host = none →
      lastValue req.x_forwarded_host = some v →
      (Trusted.«from» peer req cfg).host_with_port = some v)
    ∧ (∀ (cfg : Config) (req : Request) (peer : IpAddr) (v : String),
        cfg.is_ip_trusted peer = true →
        cfg.is_x_forwarded_proto_trusted = true →
        (forwardedStep cfg req).scheme = none →
        lastValue req.x_forwarded_proto = some v →
        (Trusted.«from» peer req cfg).scheme = some v)
    ∧ (∀ (cfg : Config) (req : Request) (peer : IpAddr) (v : String),
        cfg.is_ip_trusted peer = true →
        cfg.is_x_forwarded_by_trusted = true →
        (forwardedStep cfg req).«by» = none →
        lastValue req.x_forwarded_by = some v →
        (Trusted.«from» peer req cfg).«by» = some v)
    ∧ lastValue reqC6.x_forwarded_host = some "example.com"
    ∧ (Trusted.«from» peerLan reqC6 cfgHost).host = some "example.com" := by
  refine ⟨?_, ?_, ?_, by decide, by decide⟩
  · intro cfg req peer v h1 h2 h3 h4
    simp [Trusted.«from», Trusted.host_with_port, h1, h2, h3, h4, Trusted.orOpt]
  · intro cfg req peer v h1 h2 h3 h4
    simp [Trusted.«from», Trusted.scheme, h1, h2, h3, h4, Trusted.orOpt]
  · intro cfg req peer v h1 h2 h3 h4
    simp [Trusted.«from», Trusted.«by», h1, h2, h3, h4]

/-- Witness for C6: the example request and configuration satisfy the
hypotheses of the host clause. -/
theorem claim_C6_witness :
    (Trusted.«from» peerLan reqC6 cfgHost).host_with_port = some "example.com" :=
  claim_C6_legacy_last_value.1 cfgHost reqC6 peerLan "example.com"
    (by decide) (by decide) (by decide) (by decide)

/-- Counterexample to C4 as stated: the request `Forwarded: proto=https` from
the trusted peer 127.0.0.1 under the default configuration has no record
whose `for=` value parses to an untrusted address, yet the result differs
from the result with the `Forwarded` flag disabled — the walk stops at the
newest record (which lacks a `for=`) and keeps its `proto=https`. -/
theorem claim_C4_counterexample :
    hasTerminatingRecord Config.new_local reqC4 = false
    ∧ Config.new_local.is_forwarded_trusted = true
    ∧ reqC4.forwarded ≠ []
    ∧ (Trusted.«from» peer127 reqC4 Config.new_local).scheme = some "https"
    ∧ (Trusted.«from» peer127 reqC4
          { Config.new_local with is_forwarded_trusted := false }).scheme = none
    ∧ Trusted.«from» peer127 reqC4 Config.new_local ≠
        Trusted.«from» peer127 reqC4
          { Config.new_local with is_forwarded_trusted := false } := by
  refine ⟨by decide, by decide, by decide, by decide, by decide, by decide⟩

/-- C4 (amended): after the `Forwarded` step, if the header is absent, its
flag is off, or every flattened record has a `for=` value parsing to a
trusted address (so the reverse scan exhausts all records), then all four of
host, proto, by and client-address are still unset and the overall result
equals the result with the `Forwarded` flag disabled. (As stated the claim
fails: a scanned record without a parseable `for=` also ends the walk but
keeps its host/proto/by.) -/
theorem claim_C4_forwarded_no_result (cfg : Config) (req : Request) (peer : IpAddr)
    (h : req.forwarded = [] ∨ cfg.is_forwarded_trusted = false ∨
      ∀ r ∈ flattenSplit req.forwarded,
        paramsHaveTrustedFor cfg (recordParams r) = true) :
    forwardedStep cfg req = FwdAcc.empty
    ∧ Trusted.«from» peer req cfg =
        Trusted.«from» peer req { cfg with is_forwarded_trusted := false } := by
  have hstep : forwardedStep cfg req = FwdAcc.empty := by
    rcases h with h | h | h
    · by_cases hf : cfg.is_forwarded_trusted <;>
        simp [forwardedStep, h, flattenSplit, forwardedWalk, hf]
    · simp [forwardedStep, h]
    · rw [forwardedStep]
      by_cases hf : cfg.is_forwarded_trusted
      · rw [if_pos hf]
        exact forwardedWalk_all_trusted cfg _ (fun r hr => h r (List.mem_reverse.mp hr))
      · rw [if_neg hf]
  exact ⟨hstep, from_forwarded_empty cfg req peer hstep⟩

/-- Witness for the amended C4: a single record whose `for=` address
10.0.0.1 is trusted exhausts the walk, and the resolution agrees with the
flag-disabled resolution. -/
theorem claim_C4_witness :
    forwardedStep Config.new_local reqC4w = FwdAcc.empty
    ∧ Trusted.«from» peer127 reqC4w Config.new_local =
        Trusted.«from» peer127 reqC4w
          { Config.new_local with is_forwarded_trusted := false } :=
  claim_C4_forwarded_no_result Config.new_local reqC4w peer127
    (Or.inr (Or.inr (by decide)))

/-- Counterexample to C8 as stated: the resolved result for
`X-Forwarded-Host: [::1]:8080` (host trust enabled, trusted peer) has the
combined host field `[::1]:8080`; stripping the trailing `:port` segment
would give host `[::1]` and port 8080, but `host()` returns `[` (everything
before the first colon) and `port()` returns none (the segment between the
first and second colon is empty). -/
theorem claim_C8_counterexample :
    (Trusted.«from» peerLan reqC8bad cfgHost).host_with_port = some "[::1]:8080"
    ∧ hostStripTrailingSegment "[::1]:8080" = "[::1]"
    ∧ portTrailingSegment "[::1]:8080" = some 8080
    ∧ (Trusted.«from» peerLan reqC8bad cfgHost).host = some "["
    ∧ (Trusted.«from» peerLan reqC8bad cfgHost).port = none
    ∧ (Trusted.«from» peerLan reqC8bad cfgHost).host ≠
        some (hostStripTrailingSegment "[::1]:8080") := by
  refine ⟨by decide, by decide, by decide, by decide, by decide, by decide⟩

/-- C8 (amended): for every resolved result, `host()` returns the part of
the combined host field before the first colon (the full field when there is
no colon), and `port()` parses the segment between the first and the second
colon as a 16-bit unsigned integer, returning none when that segment is
absent or unparseable. In particular a host field `mydomain.com:8080` gives
host `mydomain.com` and port 8080, and a host field without a colon gives no
port. (As stated the claim fails when the host field contains more than one
colon: the trailing segment is not the one used.) -/
theorem claim_C8_host_port_accessors :
    (∀ (t : Trusted) (h : String), t.host_with_port = some h →
      t.host = some (String.mk (beforeChar ':' h.data))
      ∧ t.port = (match afterChar ':' h.data with
                  | none => none
                  | some rest => parseU16 (String.mk (beforeChar ':' rest))))
    ∧ (Trusted.«from» peer127 reqC8 Config.new_local).host_with_port =
        some "mydomain.com:8080"
    ∧ (Trusted.«from» peer127 reqC8 Config.new_local).host = some "mydomain.com"
    ∧ (Trusted.«from» peer127 reqC8 Config.new_local).port = some 8080
    ∧ Trusted.port ⟨some "mydomain.com", none, none, .v4 0⟩ = none := by
  refine ⟨?_, by decide, by decide, by decide, by decide⟩
  intro t h hh
  constructor
  · rw [Trusted.host, hh, Option.some_bind, splitChar_head]
  · rw [Trusted.port, hh, Option.some_bind, splitChar_second]
    cases afterChar ':' h.data with
    | none => rfl
    | some rest => rfl

/-- Witness for the amended C8: the accessor characterization evaluated on a
host field with two colons. -/
theorem claim_C8_witness :
    Trusted.host ⟨some "a:1:2", none, none, .v4 0⟩ =
      some (String.mk (beforeChar ':' "a:1:2".data))
    ∧ Trusted.port ⟨some "a:1:2", none, none, .v4 0⟩ =
        (match afterChar ':' "a:1:2".data with
         | none => none
         | some rest => parseU16 (String.mk (beforeChar ':' rest))) :=
  claim_C8_host_port_accessors.1 ⟨some "a:1:2", none, none, .v4 0⟩ "a:1:2" rfl

/-- C9: `add_trusted_ip` succeeds exactly when the text parses as a CIDR
literal or as a bare IP address (promoted to a host-length /32 or /128
prefix), appending the parsed prefix to the trusted set and leaving the five
flags unchanged; otherwise it fails with a parse error carrying the
offending text. -/
theorem claim_C9_add_trusted_ip (cfg : Config) (s : String) :
    ((∃ c, Config.add_trusted_ip cfg s = .ok c) ↔
      (parseIpNet s).isSome = true ∨ (parseIpAddr s).isSome = true)
    ∧ (∀ n, parseIpNet s = some n →
        Config.add_trusted_ip cfg s =
          .ok { cfg with trusted_ips := cfg.trusted_ips ++ [n] })
    ∧ (∀ a, parseIpNet s = none → parseIpAddr s = some a →
        Config.add_trusted_ip cfg s =
          .ok { cfg with trusted_ips := cfg.trusted_ips ++ [IpNet.fromIpAddr a] }
        ∧ (∀ b, a = .v4 b → (IpNet.fromIpAddr a).prefix_len = 32)
        ∧ (∀ b, a = .v6 b → (IpNet.fromIpAddr a).prefix_len = 128))
    ∧ (parseIpNet s = none → parseIpAddr s = none →
        Config.add_trusted_ip cfg s = .error s) := by
  refine ⟨?_, ?_, ?_, ?_⟩
  · constructor
    · rintro ⟨c, hc⟩
      rw [Config.add_trusted_ip] at hc
      cases hn : parseIpNet s with
      | some n => left; rfl
      | none =>
        rw [hn] at hc
        cases ha : parseIpAddr s with
        | some a => right; rfl
        | none => rw [ha] at hc; exact absurd hc (by simp)
    · intro h
      rw [Config.add_trusted_ip]
      cases hn : parseIpNet s with
      | some n => exact ⟨_, rfl⟩
      | none =>
        cases ha : parseIpAddr s with
        | some a => exact ⟨_, rfl⟩
        | none =>
          rw [hn, ha] at h
          simp at h
  · intro n hn
    rw [Config.add_trusted_ip, hn]
  · intro a hn ha
    refine ⟨by rw [Config.add_trusted_ip, hn, ha], ?_, ?_⟩
    · intro b hb; rw [hb]; rfl
    · intro b hb; rw [hb]; rfl
  · intro hn ha
    rw [Config.add_trusted_ip, hn, ha]

/-- Witness for C9: a CIDR literal, a bare address and a malformed text
exercise the three outcomes. -/
theorem claim_C9_witness :
    Config.add_trusted_ip Config.new "168.10.0.0/16" =
      .ok { Config.new with trusted_ips := Config.new.trusted_ips ++ [⟨.v4 2819227648, 16⟩] }
    ∧ Config.add_trusted_ip Config.new "8.8.8.8" =
        .ok { Config.new with
                trusted_ips := Config.new.trusted_ips ++ [IpNet.fromIpAddr (.v4 134744072)] }
    ∧ Config.add_trusted_ip Config.new "not-an-address" = .error "not-an-address" :=
  ⟨by
    have := (claim_C9_add_trusted_ip Config.new "168.10.0.0/16").2.1
      ⟨.v4 2819227648, 16⟩ (by decide)
    simpa using this,
   ((claim_C9_add_trusted_ip Config.new "8.8.8.8").2.2.1 (.v4 134744072)
      (by decide) (by decide)).1,
   (claim_C9_add_trusted_ip Config.new "not-an-address").2.2.2
      (by decide) (by decide)⟩
